import Mathlib

set_option maxHeartbeats 1000000

/-!
Shallow embedding of the incremental scrape-and-dedupe engine of
`src/utils/scraper.py` (class `LeetCodeScraper`), together with theorems
about its behaviour.

Modelling conventions:
* Timestamps are `Int` minutes on an abstract clock; `datetime.now()` is the
  run-level constant `Env.now` (within-run clock drift is ignored).
* The selenium page client is abstracted: a row carries the already-extracted
  cell texts (timestamp text, status, language, URLs) and the code that
  `extract_code` would pull from its submission detail page ("" = extraction
  failure), and `Env.oracle` gives the `(questionFrontendId, title)` regex
  extraction result for a problem page URL (`none` = not extractable).
* The filesystem is an association list `filename → contents`; a write
  failure of `save_solution` is modelled by the predicate `Env.write_fails`
  (the Python code catches the exception and only logs it).
* Ghost observation fields (`rows_seen`, `client_calls`, `commits`,
  `watermark_writes`) record events of the run without influencing it.
-/

namespace Scraper

/-- Time units recognised by the relative-time pattern
`(\d+)\s+(minute|hour|day|week|month|year)s?` in `parse_relative_time`
(src/utils/scraper.py line 339). -/
inductive TimeUnit
  | minute
  | hour
  | day
  | week
  | month
  | year
deriving DecidableEq

/-- Unit-to-minutes conversion, mirroring the if/elif chain of
`parse_relative_time` (src/utils/scraper.py lines 350-362). -/
def unitMinutes : TimeUnit → Nat
  | .minute => 1
  | .hour => 60
  | .day => 1440
  | .week => 10080
  | .month => 43800
  | .year => 525600

/-- Numeric value of a matched digit run, as Python `int` on a `\d+` group. -/
def digitsToNat (ds : List Char) : Nat :=
  ds.foldl (fun acc c => acc * 10 + (c.toNat - '0'.toNat)) 0

/-- Match one of the unit words at the head of the character list, following
the alternation `minute|hour|day|week|month|year` of the pattern. -/
def matchUnit (cs : List Char) : Option (TimeUnit × List Char) :=
  if cs.take 6 = "minute".data then some (.minute, cs.drop 6)
  else if cs.take 4 = "hour".data then some (.hour, cs.drop 4)
  else if cs.take 3 = "day".data then some (.day, cs.drop 3)
  else if cs.take 4 = "week".data then some (.week, cs.drop 4)
  else if cs.take 5 = "month".data then some (.month, cs.drop 5)
  else if cs.take 4 = "year".data then some (.year, cs.drop 4)
  else none

/-- Consume an optional plural `s`, as the trailing `s?` of the pattern. -/
def dropPluralS : List Char → List Char
  | 's' :: rest => rest
  | cs => cs

/-- Try to match `(\d+)\s+(minute|hour|day|week|month|year)s?` at the head of
the character list; on success return the `(value, unit)` token and the
characters after the match. ASCII digits and whitespace stand in for
Python's Unicode-aware `\d` and `\s`. -/
def tryMatch (cs : List Char) : Option ((Nat × TimeUnit) × List Char) :=
  let digits := cs.takeWhile Char.isDigit
  if digits = [] then none
  else
    let afterDigits := cs.dropWhile Char.isDigit
    let spaces := afterDigits.takeWhile Char.isWhitespace
    if spaces = [] then none
    else
      match matchUnit (afterDigits.dropWhile Char.isWhitespace) with
      | none => none
      | some (u, rest) => some ((digitsToNat digits, u), dropPluralS rest)

/-- Left-to-right non-overlapping scan of `re.findall`: at each position try
the pattern; on success emit the token and continue after the match,
otherwise advance one character. The fuel argument bounds the recursion and
is instantiated with the length of the input. -/
def findTokensAux : Nat → List Char → List (Nat × TimeUnit)
  | 0, _ => []
  | _, [] => []
  | fuel + 1, c :: rest =>
    match tryMatch (c :: rest) with
    | some (t, rest') => t :: findTokensAux fuel rest'
    | none => findTokensAux fuel rest

/-- All `(value, unit)` tokens of
`re.findall(r'(\d+)\s+(minute|hour|day|week|month|year)s?', s)`
(src/utils/scraper.py line 339). -/
def findTokens (s : String) : List (Nat × TimeUnit) :=
  findTokensAux s.data.length s.data

/-- Replacement of non-breaking spaces by ordinary spaces,
`time_str.replace(" ", " ")` (src/utils/scraper.py line 335). -/
def normalizeNbsp (s : String) : String :=
  String.mk (s.data.map (fun c => if c = Char.ofNat 160 then ' ' else c))

/-- Accumulation of `total_minutes` over the matched tokens, mirroring the
`for value_str, unit in matches` loop (src/utils/scraper.py lines 347-362). -/
def totalMinutes : List (Nat × TimeUnit) → Nat
  | [] => 0
  | (v, u) :: rest => v * unitMinutes u + totalMinutes rest

/-- Model of `LeetCodeScraper.parse_relative_time`
(src/utils/scraper.py lines 324-365): normalise non-breaking spaces, find all
`<integer> <unit>` tokens; with no token return `now` (the degenerate
fallback), otherwise return `now` minus the total elapsed minutes. -/
def parse_relative_time (now : Int) (time_str : String) : Int :=
  let ms := findTokens (normalizeNbsp time_str)
  if ms = [] then now
  else now - (totalMinutes ms : Int)

/-- Whether `parse_relative_time` logs its "Could not parse relative time"
warning (src/utils/scraper.py line 342), i.e. no token matched. -/
def parse_time_warning (time_str : String) : Bool :=
  findTokens (normalizeNbsp time_str) = []

/-- One listing row, carrying the cell data the selenium adapter hands to the
row loop of `start` (src/utils/scraper.py lines 397-426): the number of `td`
columns, the normalised timestamp text of column 0, the problem URL of
column 1, the stripped status text of column 2, the lower-cased language tag
of column 4, and the code that `extract_code` yields on the row's submission
detail page (the empty string when `submissionCode` is not found). -/
structure Row where
  cols : Nat
  time_text : String
  problem_url : String
  status : String
  language : String
  code : String
deriving DecidableEq

/-- Ghost record of one commit (lines 455-458 of src/utils/scraper.py): the
dedup key, the parsed submission time of the committed row, and its code. -/
structure CommitEvent where
  key : String × String
  time : Int
  code : String
deriving DecidableEq

/-- Run state of `LeetCodeScraper.start`: the fields of the scraper object
(`last_scraped_time`, `saved_keys`, `slug_to_id_title`), the local
`newest_timestamp`, the filesystem (`files`, as filename/contents pairs) and
the watermark state file (`persisted_watermark`), plus ghost observation
counters (`watermark_writes`, `rows_seen`, `client_calls`, `commits`). -/
structure ScrapeState where
  last_scraped_time : Option Int
  newest_timestamp : Option Int
  saved_keys : List (String × String)
  slug_to_id_title : List (String × String × String)
  files : List (String × String)
  persisted_watermark : Option Int
  watermark_writes : Nat
  rows_seen : Nat
  client_calls : Nat
  commits : List CommitEvent
deriving DecidableEq

/-- Run environment: the clock, the page-client extraction oracle for problem
pages (`(questionFrontendId, title)` regex results, `none` when not
extractable), and which file paths fail to write. -/
structure Env where
  now : Int
  oracle : String → Option (String × String)
  write_fails : String → Bool

/-- State at `__init__` plus `start`'s local variables, with the watermark
`w0` loaded from the state file (src/utils/scraper.py lines 60-76, 385). -/
def initState (w0 : Option Int) : ScrapeState :=
  { last_scraped_time := w0
    newest_timestamp := none
    saved_keys := []
    slug_to_id_title := []
    files := []
    persisted_watermark := w0
    watermark_writes := 0
    rows_seen := 0
    client_calls := 0
    commits := [] }

/-- Model of `update_last_scraped_time` (src/utils/scraper.py lines 100-110):
the state file is overwritten with `datetime.now().isoformat()` — the current
clock value, not any row timestamp. -/
def update_last_scraped_time (env : Env) (st : ScrapeState) : ScrapeState :=
  { st with persisted_watermark := some env.now
            watermark_writes := st.watermark_writes + 1 }

/-- Python `str.zfill`: left-pad with `0` up to the requested width
(used on the extracted id, src/utils/scraper.py line 263). -/
def zfill (s : String) (width : Nat) : String :=
  if width ≤ s.length then s
  else String.mk (List.replicate (width - s.length) '0' ++ s.data)

/-- Model of `extract_problem_id_and_title` (src/utils/scraper.py lines
228-284). Returns the resolution result, the updated memoization cache, and
the number of page-client invocations (tab navigations) performed: a cache
hit answers without touching the client; a miss navigates once, and only a
successful extraction is inserted into the cache. -/
def extract_problem_id_and_title (oracle : String → Option (String × String))
    (cache : List (String × String × String)) (url : String) :
    Option (String × String) × List (String × String × String) × Nat :=
  match List.lookup url cache with
  | some v => (some v, cache, 0)
  | none =>
    match oracle url with
    | some (raw_id, title) =>
      let problem_id := zfill raw_id 4
      (some (problem_id, title), (url, problem_id, title) :: cache, 1)
    | none => (none, cache, 1)

/-- The `extension_map` literal of `save_solution`
(src/utils/scraper.py lines 297-304). -/
def extension_map : List (String × String) :=
  [("cpp", "cpp"), ("python3", "py"), ("c", "c"),
   ("java", "java"), ("javascript", "js"), ("typescript", "ts")]

/-- `extension_map.get(language, "txt")` (src/utils/scraper.py line 305). -/
def get_extension (language : String) : String :=
  (List.lookup language extension_map).getD "txt"

/-- Per-character title sanitisation rule of `save_solution`
(src/utils/scraper.py lines 308-310): keep alphanumerics and ` -_.`,
replace everything else with an underscore. -/
def sanitize_char (c : Char) : Char :=
  if c.isAlphanum || c = ' ' || c = '-' || c = '_' || c = '.' then c else '_'

/-- Title sanitisation of `save_solution` (src/utils/scraper.py lines
308-310), applied character by character. -/
def sanitize_title (title : String) : String :=
  String.mk (title.data.map sanitize_char)

/-- The filename `f"{problem_id} - {sanitized_title}.{file_extension}"`
built by `save_solution` (src/utils/scraper.py line 313). -/
def make_filename (problem_id title language : String) : String :=
  problem_id ++ " - " ++ sanitize_title title ++ "." ++ get_extension language

/-- Overwriting insert into the filename/contents association list
(`open(file_path, "w")` semantics: last write wins). -/
def upsert : List (String × String) → String → String → List (String × String)
  | [], k, v => [(k, v)]
  | (k', v') :: rest, k, v =>
    if k' = k then (k, v) :: rest else (k', v') :: upsert rest k v

/-- Model of `save_solution` (src/utils/scraper.py lines 286-322): build the
filename and write the code; a failed write is caught and logged, leaving the
state unchanged and raising no error to the caller. -/
def save_solution (env : Env) (st : ScrapeState)
    (problem_id title language code : String) : ScrapeState :=
  if env.write_fails (make_filename problem_id title language) then st
  else { st with files := upsert st.files (make_filename problem_id title language) code }

/-- The `supported_languages` literal of `start`
(src/utils/scraper.py line 433). -/
def supported_languages : List String :=
  ["cpp", "python3", "c", "java", "javascript", "typescript"]

/-- Parsed submission time of a row: `parse_relative_time` applied to the
row's normalised timestamp text (src/utils/scraper.py line 410). -/
def parseT (env : Env) (r : Row) : Int :=
  parse_relative_time env.now r.time_text

/-- Update of the local `newest_timestamp` tracker
(src/utils/scraper.py lines 428-430). -/
def trackNewest (st : ScrapeState) (t : Int) : ScrapeState :=
  { st with newest_timestamp :=
      match st.newest_timestamp with
      | none => some t
      | some n => if n < t then some t else some n }

/-- Dedup check, code extraction and commit for an eligible, resolved row
(src/utils/scraper.py lines 442-458): skip when the key was already saved in
this run; otherwise extract the code, and only when it is non-empty write the
solution and record the key — the ledger update does not depend on the
success of the file write. -/
def commitPhase (env : Env) (st : ScrapeState) (r : Row) (t : Int)
    (problem_id title : String) : ScrapeState :=
  if (problem_id, r.language) ∈ st.saved_keys then st
  else if r.code = "" then st
  else
    { save_solution env st problem_id title r.language r.code with
      saved_keys := (problem_id, r.language) :: st.saved_keys
      commits := ⟨(problem_id, r.language), t, r.code⟩ :: st.commits }

/-- Eligibility filter, identity resolution and commit for a row that passed
the watermark cutoff (src/utils/scraper.py lines 432-458): skip rows not
accepted or not in a supported language; resolve the problem identity through
the memoized resolver (counting client calls); skip on resolution failure. -/
def eligiblePhase (env : Env) (st : ScrapeState) (r : Row) (t : Int) :
    ScrapeState :=
  if r.status ≠ "Accepted" ∨ r.language ∉ supported_languages then st
  else
    match extract_problem_id_and_title env.oracle st.slug_to_id_title r.problem_url with
    | (none, cache', calls) =>
      { st with slug_to_id_title := cache'
                client_calls := st.client_calls + calls }
    | (some (problem_id, title), cache', calls) =>
      commitPhase env
        { st with slug_to_id_title := cache'
                  client_calls := st.client_calls + calls }
        r t problem_id title

/-- Processing of one listing row by the loop body of `start`
(src/utils/scraper.py lines 397-463). The boolean is the stop signal of the
watermark cutoff (lines 415-419), which also persists the watermark before
returning. Rows with fewer than 5 columns are skipped before any timestamp
work (lines 400-403). -/
def processRow (env : Env) (st0 : ScrapeState) (r : Row) : ScrapeState × Bool :=
  if r.cols < 5 then ({ st0 with rows_seen := st0.rows_seen + 1 }, false)
  else
    match st0.last_scraped_time with
    | some w =>
      if parseT env r ≤ w then
        (update_last_scraped_time env { st0 with rows_seen := st0.rows_seen + 1 }, true)
      else
        (eligiblePhase env
          (trackNewest { st0 with rows_seen := st0.rows_seen + 1 } (parseT env r))
          r (parseT env r), false)
    | none =>
      (eligiblePhase env
        (trackNewest { st0 with rows_seen := st0.rows_seen + 1 } (parseT env r))
        r (parseT env r), false)

/-- Processing of the rows of one page in order, stopping at the watermark
cutoff (the `for row in rows` loop of `start`). -/
def processRows (env : Env) : List Row → ScrapeState → ScrapeState × Bool
  | [], st => (st, false)
  | r :: rs, st =>
    match processRow env st r with
    | (st', true) => (st', true)
    | (st', false) => processRows env rs st'

/-- Page-by-page traversal of `start` (the `while True` loop with the
pagination step of src/utils/scraper.py lines 479-496): the cutoff return
ends the whole traversal, exhausting the pages ends it normally. -/
def runPages (env : Env) : List (List Row) → ScrapeState → ScrapeState
  | [], st => st
  | p :: ps, st =>
    match processRows env p st with
    | (st', true) => st'
    | (st', false) => runPages env ps st'

/-- Model of `LeetCodeScraper.start` (src/utils/scraper.py lines 367-507) on
the listing `pages` with loaded watermark `w0`. The `finally` block always
runs `update_last_scraped_time` once more at the end (line 507), in addition
to the call already made inside the cutoff branch (line 418). -/
def start (env : Env) (pages : List (List Row)) (w0 : Option Int) : ScrapeState :=
  update_last_scraped_time env (runPages env pages (initState w0))

/-! ### Concrete scenarios used by the end-to-end theorems -/

/-- Environment for the two-accepted-rows scenario: clock at 1000000,
problem pages `u1`/`u2` resolvable, all writes succeed. -/
def c1Env : Env :=
  { now := 1000000
    oracle := fun u =>
      if u = "u1" then some ("1", "A")
      else if u = "u2" then some ("2", "B")
      else none
    write_fails := fun _ => false }

/-- Accepted python3 row, 5 minutes old, of problem `u1`. -/
def c1RowPy : Row :=
  { cols := 5, time_text := "5 minutes ago", problem_url := "u1"
    status := "Accepted", language := "python3", code := "print(1)" }

/-- Accepted cpp row, 10 minutes old, of problem `u2`. -/
def c1RowCpp : Row :=
  { cols := 5, time_text := "10 minutes ago", problem_url := "u2"
    status := "Accepted", language := "cpp", code := "int x;" }

/-- Environment for the watermark-cutoff scenario: clock at 1000. -/
def c2Env : Env :=
  { now := 1000, oracle := fun _ => none, write_fails := fun _ => false }

/-- Row 400 minutes old (parsed time 600, above the watermark 500). -/
def c2RowFresh : Row :=
  { cols := 5, time_text := "400 minutes ago", problem_url := "u"
    status := "Wrong Answer", language := "cpp", code := "" }

/-- Row 600 minutes old (parsed time 400, at or below the watermark 500). -/
def c2RowStale : Row :=
  { cols := 5, time_text := "600 minutes ago", problem_url := "u"
    status := "Wrong Answer", language := "cpp", code := "" }

/-- Environment in which every file write fails. -/
def c3Env : Env :=
  { now := 1000
    oracle := fun u => if u = "u3" then some ("3", "T") else none
    write_fails := fun _ => true }

/-- Accepted cpp row of problem `u3` with non-empty code. -/
def c3Row : Row :=
  { cols := 5, time_text := "5 minutes ago", problem_url := "u3"
    status := "Accepted", language := "cpp", code := "int y;" }

/-- Environment for the duplicate-key scenario. -/
def c4Env : Env :=
  { now := 1000
    oracle := fun u => if u = "u7" then some ("7", "T") else none
    write_fails := fun _ => false }

/-- Newest accepted cpp row of problem `u7` (processed first). -/
def c4RowNew : Row :=
  { cols := 5, time_text := "1 hour ago", problem_url := "u7"
    status := "Accepted", language := "cpp", code := "new code" }

/-- Older accepted cpp row of problem `u7` with the same dedup key. -/
def c4RowOld : Row :=
  { cols := 5, time_text := "2 hours ago", problem_url := "u7"
    status := "Accepted", language := "cpp", code := "old code" }

/-- Environment whose problem pages never expose an id/title pair. -/
def c7Env : Env :=
  { now := 1000, oracle := fun _ => none, write_fails := fun _ => false }

/-- Accepted cpp row of the unresolvable problem `u`. -/
def c7Row : Row :=
  { cols := 5, time_text := "5 minutes ago", problem_url := "u"
    status := "Accepted", language := "cpp", code := "x" }

/-- Environment for the unsupported-language scenario. -/
def c8Env : Env :=
  { now := 1000
    oracle := fun u => if u = "u9" then some ("9", "R") else none
    write_fails := fun _ => false }

/-- Accepted row in the unsupported language `ruby`. -/
def c8RowRuby : Row :=
  { cols := 5, time_text := "5 minutes ago", problem_url := "u9"
    status := "Accepted", language := "ruby", code := "puts 1" }

/-- Accepted python3 row of problem `u9`, used to exhibit one commit. -/
def c8RowPy : Row :=
  { cols := 5, time_text := "5 minutes ago", problem_url := "u9"
    status := "Accepted", language := "python3", code := "print(9)" }

/-! ### Frame lemmas for the state operations -/

lemma save_solution_core (env : Env) (st : ScrapeState) (p ttl l c : String) :
    (save_solution env st p ttl l c).last_scraped_time = st.last_scraped_time
    ∧ (save_solution env st p ttl l c).newest_timestamp = st.newest_timestamp
    ∧ (save_solution env st p ttl l c).saved_keys = st.saved_keys
    ∧ (save_solution env st p ttl l c).slug_to_id_title = st.slug_to_id_title
    ∧ (save_solution env st p ttl l c).persisted_watermark = st.persisted_watermark
    ∧ (save_solution env st p ttl l c).watermark_writes = st.watermark_writes
    ∧ (save_solution env st p ttl l c).rows_seen = st.rows_seen
    ∧ (save_solution env st p ttl l c).client_calls = st.client_calls
    ∧ (save_solution env st p ttl l c).commits = st.commits := by
  unfold save_solution
  split <;> exact ⟨rfl, rfl, rfl, rfl, rfl, rfl, rfl, rfl, rfl⟩

lemma commitPhase_core (env : Env) (st : ScrapeState) (r : Row) (t : Int)
    (pid ttl : String) :
    (commitPhase env st r t pid ttl).last_scraped_time = st.last_scraped_time
    ∧ (commitPhase env st r t pid ttl).newest_timestamp = st.newest_timestamp
    ∧ (commitPhase env st r t pid ttl).slug_to_id_title = st.slug_to_id_title
    ∧ (commitPhase env st r t pid ttl).persisted_watermark = st.persisted_watermark
    ∧ (commitPhase env st r t pid ttl).watermark_writes = st.watermark_writes
    ∧ (commitPhase env st r t pid ttl).rows_seen = st.rows_seen
    ∧ (commitPhase env st r t pid ttl).client_calls = st.client_calls := by
  unfold commitPhase
  split
  · exact ⟨rfl, rfl, rfl, rfl, rfl, rfl, rfl⟩
  · split
    · exact ⟨rfl, rfl, rfl, rfl, rfl, rfl, rfl⟩
    · refine ⟨?_, ?_, ?_, ?_, ?_, ?_, ?_⟩
      · exact (save_solution_core env st pid ttl r.language r.code).1
      · exact (save_solution_core env st pid ttl r.language r.code).2.1
      · exact (save_solution_core env st pid ttl r.language r.code).2.2.2.1
      · exact (save_solution_core env st pid ttl r.language r.code).2.2.2.2.1
      · exact (save_solution_core env st pid ttl r.language r.code).2.2.2.2.2.1
      · exact (save_solution_core env st pid ttl r.language r.code).2.2.2.2.2.2.1
      · exact (save_solution_core env st pid ttl r.language r.code).2.2.2.2.2.2.2.1

lemma eligiblePhase_core (env : Env) (st : ScrapeState) (r : Row) (t : Int) :
    (eligiblePhase env st r t).last_scraped_time = st.last_scraped_time
    ∧ (eligiblePhase env st r t).newest_timestamp = st.newest_timestamp
    ∧ (eligiblePhase env st r t).persisted_watermark = st.persisted_watermark
    ∧ (eligiblePhase env st r t).watermark_writes = st.watermark_writes
    ∧ (eligiblePhase env st r t).rows_seen = st.rows_seen := by
  unfold eligiblePhase
  split
  · exact ⟨rfl, rfl, rfl, rfl, rfl⟩
  · split
    · exact ⟨rfl, rfl, rfl, rfl, rfl⟩
    · rename_i pid ttl cache' calls heq
      refine ⟨?_, ?_, ?_, ?_, ?_⟩
      · exact (commitPhase_core env _ r t pid ttl).1
      · exact (commitPhase_core env _ r t pid ttl).2.1
      · exact (commitPhase_core env _ r t pid ttl).2.2.2.1
      · exact (commitPhase_core env _ r t pid ttl).2.2.2.2.1
      · exact (commitPhase_core env _ r t pid ttl).2.2.2.2.2.1

lemma commitPhase_step (env : Env) (st : ScrapeState) (r : Row) (t : Int)
    (pid ttl : String) :
    ((commitPhase env st r t pid ttl).saved_keys = st.saved_keys
      ∧ (commitPhase env st r t pid ttl).commits = st.commits)
    ∨ (r.code ≠ "" ∧ (pid, r.language) ∉ st.saved_keys
       ∧ (commitPhase env st r t pid ttl).saved_keys = (pid, r.language) :: st.saved_keys
       ∧ (commitPhase env st r t pid ttl).commits
           = ⟨(pid, r.language), t, r.code⟩ :: st.commits) := by
  unfold commitPhase
  split
  · exact Or.inl ⟨rfl, rfl⟩
  · rename_i hmem
    split
    · exact Or.inl ⟨rfl, rfl⟩
    · rename_i hcode
      exact Or.inr ⟨hcode, hmem, rfl, rfl⟩

lemma eligiblePhase_step (env : Env) (st : ScrapeState) (r : Row) (t : Int) :
    ((eligiblePhase env st r t).saved_keys = st.saved_keys
      ∧ (eligiblePhase env st r t).commits = st.commits)
    ∨ (∃ pid,
        r.language ∈ supported_languages ∧ r.code ≠ ""
        ∧ (pid, r.language) ∉ st.saved_keys
        ∧ (eligiblePhase env st r t).saved_keys = (pid, r.language) :: st.saved_keys
        ∧ (eligiblePhase env st r t).commits
            = ⟨(pid, r.language), t, r.code⟩ :: st.commits) := by
  unfold eligiblePhase
  split
  · exact Or.inl ⟨rfl, rfl⟩
  · rename_i helig
    have hsup : r.language ∈ supported_languages := not_not.mp (not_or.mp helig).2
    split
    · exact Or.inl ⟨rfl, rfl⟩
    · rename_i pid ttl cache' calls heq
      rcases commitPhase_step env
          { st with slug_to_id_title := cache'
                    client_calls := st.client_calls + calls } r t pid ttl with
        ⟨h1, h2⟩ | ⟨hcode, hmem, h1, h2⟩
      · exact Or.inl ⟨h1, h2⟩
      · exact Or.inr ⟨pid, hsup, hcode, hmem, h1, h2⟩

lemma processRow_last (env : Env) (st : ScrapeState) (r : Row) :
    (processRow env st r).1.last_scraped_time = st.last_scraped_time := by
  unfold processRow
  split
  · rfl
  · split
    · split
      · rfl
      · exact (eligiblePhase_core env _ r _).1
    · exact (eligiblePhase_core env _ r _).1

lemma processRow_rows_seen (env : Env) (st : ScrapeState) (r : Row) :
    (processRow env st r).1.rows_seen = st.rows_seen + 1 := by
  unfold processRow
  split
  · rfl
  · split
    · split
      · rfl
      · exact (eligiblePhase_core env _ r _).2.2.2.2
    · exact (eligiblePhase_core env _ r _).2.2.2.2

lemma processRow_stop (env : Env) (st : ScrapeState) (r : Row) :
    (processRow env st r).2 = true ↔
      (¬ r.cols < 5 ∧ ∃ w, st.last_scraped_time = some w ∧ parseT env r ≤ w) := by
  unfold processRow
  split
  · rename_i h5
    simp [h5]
  · rename_i h5
    split
    · rename_i w heq
      split
      · rename_i hle
        simp only [heq]
        simp [h5, hle]
      · rename_i hle
        simp only [heq]
        simp [h5, hle]
    · rename_i heq
      simp [heq]

lemma processRow_step (env : Env) (st : ScrapeState) (r : Row) :
    ((processRow env st r).1.saved_keys = st.saved_keys
      ∧ (processRow env st r).1.commits = st.commits)
    ∨ (∃ pid,
        r.language ∈ supported_languages ∧ r.code ≠ ""
        ∧ (pid, r.language) ∉ st.saved_keys
        ∧ (∀ w, st.last_scraped_time = some w → w < parseT env r)
        ∧ (processRow env st r).1.saved_keys = (pid, r.language) :: st.saved_keys
        ∧ (processRow env st r).1.commits
            = ⟨(pid, r.language), parseT env r, r.code⟩ :: st.commits) := by
  unfold processRow
  split
  · exact Or.inl ⟨rfl, rfl⟩
  · split
    · rename_i w heq
      split
      · exact Or.inl ⟨rfl, rfl⟩
      · rename_i hle
        have hfresh : ∀ w', st.last_scraped_time = some w' → w' < parseT env r := by
          intro w' hw'
          rw [heq] at hw'
          cases hw'
          exact lt_of_not_le hle
        rcases eligiblePhase_step env _ r (parseT env r) with ⟨h1, h2⟩ | ⟨pid, hsup, hcode, hmem, h1, h2⟩
        · exact Or.inl ⟨h1, h2⟩
        · exact Or.inr ⟨pid, hsup, hcode, hmem, hfresh, h1, h2⟩
    · rename_i heq
      have hfresh : ∀ w', st.last_scraped_time = some w' → w' < parseT env r := by
        intro w' hw'
        rw [heq] at hw'
        cases hw'
      rcases eligiblePhase_step env _ r (parseT env r) with ⟨h1, h2⟩ | ⟨pid, hsup, hcode, hmem, h1, h2⟩
      · exact Or.inl ⟨h1, h2⟩
      · exact Or.inr ⟨pid, hsup, hcode, hmem, hfresh, h1, h2⟩

/-! ### Lemmas about the row loop and the page loop -/

lemma processRows_invariant (env : Env) (P : ScrapeState → Prop)
    (hstep : ∀ st r, P st → P (processRow env st r).1) :
    ∀ (rs : List Row) (st : ScrapeState), P st → P (processRows env rs st).1 := by
  intro rs
  induction rs with
  | nil => intro st h; exact h
  | cons r rs ih =>
    intro st h
    unfold processRows
    cases hpr : processRow env st r with
    | mk st' b =>
      have hst' : P st' := by
        have := hstep st r h
        rwa [hpr] at this
      cases b
      · simpa using ih st' hst'
      · simpa using hst'

lemma processRows_append (env : Env) (as bs : List Row) (st : ScrapeState) :
    processRows env (as ++ bs) st
      = match processRows env as st with
        | (st', true) => (st', true)
        | (st', false) => processRows env bs st' := by
  induction as generalizing st with
  | nil => simp [processRows]
  | cons r as ih =>
    simp only [List.cons_append, processRows]
    cases hpr : processRow env st r with
    | mk st' b =>
      cases b
      · simpa using ih st'
      · simp

lemma runPages_cons (env : Env) (p : List Row) (ps : List (List Row))
    (st : ScrapeState) :
    runPages env (p :: ps) st
      = match processRows env p st with
        | (st', true) => st'
        | (st', false) => runPages env ps st' := rfl

lemma runPages_eq (env : Env) (pages : List (List Row)) (st : ScrapeState) :
    runPages env pages st = (processRows env pages.flatten st).1 := by
  induction pages generalizing st with
  | nil => rfl
  | cons p ps ih =>
    have hj : (p :: ps).flatten = p ++ ps.flatten := rfl
    rw [hj, processRows_append, runPages_cons]
    cases hpr : processRows env p st with
    | mk st' b =>
      cases b
      · exact ih st'
      · rfl

lemma processRows_cutoff (env : Env) (W : Int) :
    ∀ (rs : List Row) (st : ScrapeState),
      st.last_scraped_time = some W →
      (∀ r ∈ rs, ¬ r.cols < 5) →
      (∃ r ∈ rs, parseT env r ≤ W) →
      (processRows env rs st).1.rows_seen
          = st.rows_seen + (rs.takeWhile (fun r => decide (W < parseT env r))).length + 1
      ∧ (processRows env rs st).2 = true := by
  intro rs
  induction rs with
  | nil =>
    intro st _ _ hstale
    simp at hstale
  | cons r rs ih =>
    intro st hW hcols hstale
    by_cases hr : parseT env r ≤ W
    · have h5 : ¬ r.cols < 5 := hcols r (by simp)
      have hstop : (processRow env st r).2 = true :=
        (processRow_stop env st r).2 ⟨h5, W, hW, hr⟩
      unfold processRows
      cases hpr : processRow env st r with
      | mk st' b =>
        rw [hpr] at hstop
        cases b
        · simp at hstop
        · have hrows : st'.rows_seen = st.rows_seen + 1 := by
            have := processRow_rows_seen env st r
            rwa [hpr] at this
          have hpred : (fun r => decide (W < parseT env r)) r = false := by
            simp [not_lt.mpr hr]
          simp [List.takeWhile, hpred, hrows]
    · have hlt : W < parseT env r := lt_of_not_le hr
      have hstop : (processRow env st r).2 = false := by
        cases hb : (processRow env st r).2
        · rfl
        · rcases (processRow_stop env st r).1 hb with ⟨_, w, hw, hle⟩
          rw [hW] at hw
          cases hw
          exact absurd hle hr
      unfold processRows
      cases hpr : processRow env st r with
      | mk st' b =>
        rw [hpr] at hstop
        cases b
        · have hW' : st'.last_scraped_time = some W := by
            have := processRow_last env st r
            rw [hpr] at this
            rwa [hW] at this
          have hcols' : ∀ x ∈ rs, ¬ x.cols < 5 := fun x hx => hcols x (by simp [hx])
          have hstale' : ∃ x ∈ rs, parseT env x ≤ W := by
            rcases hstale with ⟨x, hx, hxle⟩
            rcases List.mem_cons.mp hx with hx | hx
            · subst hx; exact absurd hxle hr
            · exact ⟨x, hx, hxle⟩
          have hrows : st'.rows_seen = st.rows_seen + 1 := by
            have := processRow_rows_seen env st r
            rwa [hpr] at this
          rcases ih st' hW' hcols' hstale' with ⟨h1, h2⟩
          have hpred : (fun r => decide (W < parseT env r)) r = true := by
            simp [hlt]
          constructor
          · simp only [List.takeWhile, hpred]
            simp only [List.length_cons]
            rw [h1, hrows]
            omega
          · exact h2
        · simp at hstop

lemma start_invariant (env : Env) (P : ScrapeState → Prop)
    (hstep : ∀ st r, P st → P (processRow env st r).1)
    (hupd : ∀ st, P st → P (update_last_scraped_time env st))
    (pages : List (List Row)) (w0 : Option Int) (h0 : P (initState w0)) :
    P (start env pages w0) := by
  unfold start
  apply hupd
  rw [runPages_eq]
  exact processRows_invariant env P hstep pages.flatten (initState w0) h0

lemma totalMinutes_eq_sum (l : List (Nat × TimeUnit)) :
    totalMinutes l = (l.map (fun p => p.1 * unitMinutes p.2)).sum := by
  induction l with
  | nil => rfl
  | cons p l ih =>
    cases p with
    | mk v u => simp [totalMinutes, ih]

lemma trackNewest_eq (st : ScrapeState) (t : Int) :
    trackNewest st t
      = { st with newest_timestamp := some (max (st.newest_timestamp.getD t) t) } := by
  unfold trackNewest
  cases hn : st.newest_timestamp with
  | none => simp
  | some n =>
    by_cases h : n < t
    · simp [h, max_eq_right h.le]
    · simp [h, max_eq_left (not_lt.mp h)]

lemma eligiblePhase_ineligible (env : Env) (st : ScrapeState) (r : Row) (t : Int)
    (hinel : r.status ≠ "Accepted" ∨ r.language ∉ supported_languages) :
    eligiblePhase env st r t = st := by
  unfold eligiblePhase
  rw [if_pos hinel]

/-! ### Claim theorems -/

/-- C5: for every input string containing at least one `<integer> <unit>`
token (unit in minute/hour/day/week/month/year, optionally pluralised),
`parse_relative_time` returns `now` minus the sum over all matched tokens of
value times the fixed conversion (minute=1, hour=60, day=1440, week=10080,
month=43800, year=525600 minutes); for every input with no matching token it
returns the current time and raises the warning condition, never failing. -/
theorem c5_parse_relative_time (now : Int) (s : String) :
    (findTokens (normalizeNbsp s) ≠ [] →
      parse_relative_time now s
        = now - (((findTokens (normalizeNbsp s)).map
            (fun p => p.1 * unitMinutes p.2)).sum : Int))
    ∧ (findTokens (normalizeNbsp s) = [] →
        parse_relative_time now s = now ∧ parse_time_warning s = true)
    ∧ unitMinutes TimeUnit.minute = 1 ∧ unitMinutes TimeUnit.hour = 60
    ∧ unitMinutes TimeUnit.day = 1440 ∧ unitMinutes TimeUnit.week = 10080
    ∧ unitMinutes TimeUnit.month = 43800 ∧ unitMinutes TimeUnit.year = 525600 := by
  refine ⟨?_, ?_, rfl, rfl, rfl, rfl, rfl, rfl⟩
  · intro h
    unfold parse_relative_time
    rw [if_neg h, totalMinutes_eq_sum]
  · intro h
    unfold parse_relative_time parse_time_warning
    rw [if_pos h]
    exact ⟨rfl, by simp [h]⟩

/-- Witness for C5 at concrete inputs: "2 hours ago" parses to `now - 120`
and token-free input returns `now` with the warning raised. -/
theorem c5_parse_relative_time_witness :
    parse_relative_time 100000 "2 hours ago" = 100000 - 120
    ∧ parse_relative_time 100000 "just now" = 100000
    ∧ parse_time_warning "just now" = true := by
  refine ⟨?_, ?_, ?_⟩
  · have h := (c5_parse_relative_time 100000 "2 hours ago").1 (by decide)
    rw [h]
    decide
  · exact ((c5_parse_relative_time 100000 "just now").2.1 (by decide)).1
  · exact ((c5_parse_relative_time 100000 "just now").2.1 (by decide)).2

/-- C9: title sanitisation maps the title character by character, keeping
alphanumerics, space, `-`, `_`, `.` unchanged and replacing every other
character with `_`; `"A/B: Two Sum?"` yields `"A_B_ Two Sum_"`, and the
filename is `"{problem_id} - {sanitized_title}.{extension}"`. -/
theorem c9_sanitize_and_filename :
    (∀ t : String, (sanitize_title t).data = t.data.map sanitize_char)
    ∧ (∀ c : Char, c.isAlphanum = true → sanitize_char c = c)
    ∧ sanitize_char ' ' = ' ' ∧ sanitize_char '-' = '-'
    ∧ sanitize_char '_' = '_' ∧ sanitize_char '.' = '.'
    ∧ (∀ c : Char, c.isAlphanum = false → c ≠ ' ' → c ≠ '-' → c ≠ '_' → c ≠ '.' →
        sanitize_char c = '_')
    ∧ sanitize_title "A/B: Two Sum?" = "A_B_ Two Sum_"
    ∧ (∀ pid ttl lang : String,
        make_filename pid ttl lang
          = pid ++ " - " ++ sanitize_title ttl ++ "." ++ get_extension lang) := by
  refine ⟨fun t => rfl, ?_, rfl, rfl, rfl, rfl, ?_, by decide, fun _ _ _ => rfl⟩
  · intro c h
    simp [sanitize_char, h]
  · intro c h h1 h2 h3 h4
    simp [sanitize_char, h, h1, h2, h3, h4]

/-- Witness for C9: an alphanumeric character is kept and `/` is replaced. -/
theorem c9_sanitize_and_filename_witness :
    sanitize_char 'A' = 'A' ∧ sanitize_char '/' = '_' := by
  constructor
  · exact c9_sanitize_and_filename.2.1 'A' (by decide)
  · exact c9_sanitize_and_filename.2.2.2.2.2.2.1 '/' (by decide) (by decide)
      (by decide) (by decide) (by decide)

/-- C10: a listing row exposing fewer than 5 columns is skipped before any
timestamp work: the loop iteration only increments the row counter — no
newest-observed update, no watermark cutoff, no write, no ledger entry, no
client call — and the scan continues with the next row. -/
theorem c10_short_row_skipped (env : Env) (st : ScrapeState) (r : Row)
    (h : r.cols < 5) :
    processRow env st r = ({ st with rows_seen := st.rows_seen + 1 }, false) := by
  unfold processRow
  rw [if_pos h]

/-- Witness for C10: a 3-column row in a state with a watermark the row's
time would be under leaves everything but the row counter unchanged. -/
theorem c10_short_row_skipped_witness :
    processRow ⟨1000, fun _ => none, fun _ => false⟩ (initState (some 999))
        ⟨3, "5 minutes ago", "u", "Accepted", "cpp", "x"⟩
      = ({ initState (some 999) with rows_seen := 1 }, false) := by
  have h := c10_short_row_skipped ⟨1000, fun _ => none, fun _ => false⟩
      (initState (some 999)) ⟨3, "5 minutes ago", "u", "Accepted", "cpp", "x"⟩
      (by decide)
  exact h

/-- C6: a row with at least 5 columns that passes the watermark cutoff but
whose status is not `"Accepted"` or whose language is unsupported is skipped
with no file write, no ledger entry and no client call, yet its parsed time
still advances the newest-observed candidate watermark tracker, and the scan
continues; no other run state changes. -/
theorem c6_ineligible_row_advances_newest (env : Env) (st : ScrapeState) (r : Row)
    (h5 : ¬ r.cols < 5)
    (hfresh : ∀ w, st.last_scraped_time = some w → w < parseT env r)
    (hinel : r.status ≠ "Accepted" ∨ r.language ∉ supported_languages) :
    processRow env st r
      = ({ st with
            rows_seen := st.rows_seen + 1
            newest_timestamp :=
              some (max (st.newest_timestamp.getD (parseT env r)) (parseT env r)) },
         false) := by
  unfold processRow
  rw [if_neg h5]
  cases hlast : st.last_scraped_time with
  | none =>
    dsimp only
    rw [eligiblePhase_ineligible env _ r _ hinel, trackNewest_eq]
  | some w =>
    dsimp only
    rw [if_neg (not_le.mpr (hfresh w hlast))]
    rw [eligiblePhase_ineligible env _ r _ hinel, trackNewest_eq]

/-- Witness for C6: a 5-column "Wrong Answer" row, 5 minutes old at clock
1000, advances the tracker to 995 and changes nothing else. -/
theorem c6_ineligible_row_advances_newest_witness :
    processRow ⟨1000, fun _ => none, fun _ => false⟩ (initState none)
        ⟨5, "5 minutes ago", "u", "Wrong Answer", "cpp", "x"⟩
      = ({ initState none with rows_seen := 1, newest_timestamp := some 995 },
         false) := by
  have h := c6_ineligible_row_advances_newest ⟨1000, fun _ => none, fun _ => false⟩
      (initState none) ⟨5, "5 minutes ago", "u", "Wrong Answer", "cpp", "x"⟩
      (by decide) (fun w hw => Option.noConfusion hw) (Or.inl (by decide))
  rw [h]
  decide

/-- C2: with a non-null watermark `W`, every row exposing at least 5 columns
and the rows presented in descending order by parsed time, the run commits
no row whose parsed time is at or below `W`; it stops the entire scan at the
first such row — the number of rows visited is exactly the fresh prefix plus
that one stale row, so no later row on this or any later page is processed —
and it terminates with the watermark persisted. -/
theorem c2_watermark_cutoff (env : Env) (pages : List (List Row)) (W : Int)
    (hcols : ∀ r ∈ pages.flatten, ¬ r.cols < 5)
    (_hdesc : List.Chain' (fun a b => parseT env b ≤ parseT env a) pages.flatten)
    (hstale : ∃ r ∈ pages.flatten, parseT env r ≤ W) :
    (∀ e ∈ (start env pages (some W)).commits, W < e.time)
    ∧ (start env pages (some W)).rows_seen
        = ((pages.flatten).takeWhile (fun r => decide (W < parseT env r))).length + 1
    ∧ (start env pages (some W)).persisted_watermark = some env.now := by
  have hfresh := start_invariant env
      (fun st => st.last_scraped_time = some W ∧ ∀ e ∈ st.commits, W < e.time)
      (fun st r h => by
        refine ⟨?_, ?_⟩
        · rw [processRow_last]
          exact h.1
        · rcases processRow_step env st r with ⟨_, h2⟩ | ⟨pid, _, _, _, hfr, _, h2⟩
          · rw [h2]; exact h.2
          · rw [h2]
            intro e he
            rcases List.mem_cons.mp he with he | he
            · subst he; exact hfr W h.1
            · exact h.2 e he)
      (fun st h => h)
      pages (some W) ⟨rfl, fun e he => absurd he (List.not_mem_nil e)⟩
  refine ⟨hfresh.2, ?_, rfl⟩
  show (update_last_scraped_time env (runPages env pages (initState (some W)))).rows_seen = _
  have hrs : (update_last_scraped_time env
      (runPages env pages (initState (some W)))).rows_seen
      = (runPages env pages (initState (some W))).rows_seen := rfl
  rw [hrs, runPages_eq]
  have hc := processRows_cutoff env W pages.flatten (initState (some W)) rfl hcols hstale
  rw [hc.1]
  show 0 + _ + 1 = _ + 1
  omega

/-- Witness for C2 at a concrete run: watermark 500, a fresh row parsed at
600 followed by a stale row parsed at 400; exactly two rows are visited and
the watermark is persisted. -/
theorem c2_watermark_cutoff_witness :
    (start c2Env [[c2RowFresh, c2RowStale]] (some 500)).rows_seen = 2
    ∧ (start c2Env [[c2RowFresh, c2RowStale]] (some 500)).persisted_watermark
        = some 1000 := by
  have hdesc : List.Chain' (fun a b => parseT c2Env b ≤ parseT c2Env a)
      [[c2RowFresh, c2RowStale]].flatten := by
    show List.Chain' _ [c2RowFresh, c2RowStale]
    rw [List.chain'_cons]
    exact ⟨by decide, List.chain'_singleton _⟩
  have h := c2_watermark_cutoff c2Env [[c2RowFresh, c2RowStale]] 500
      (by decide) hdesc (by decide)
  refine ⟨?_, h.2.2⟩
  rw [h.2.1]
  decide

/-- Counterexample to C3: in a run where the only file write fails but the
code extraction is non-empty, the dedup ledger still records the key — the
code adds the key after `save_solution` regardless of write success, so the
row would not be retried; the claim says a failed write leaves the ledger
not updated. -/
theorem c3_counterexample :
    (start c3Env [[c3Row]] none).saved_keys = [("0003", "cpp")]
    ∧ (start c3Env [[c3Row]] none).files = [] := by
  decide

/-- C3 (amended): the dedup ledger records a key exactly at a commit that
follows a successful, non-empty code extraction; the file write is attempted
but its failure does not prevent the ledger update (so a write-failed row is
not retried within the run; cross-run retry is governed by the watermark,
not the ledger, which is in-memory). -/
theorem c3_ledger_follows_extraction (env : Env) (pages : List (List Row))
    (w0 : Option Int) :
    (∀ e ∈ (start env pages w0).commits, e.code ≠ "")
    ∧ (∀ k ∈ (start env pages w0).saved_keys,
        ∃ e ∈ (start env pages w0).commits, e.key = k) := by
  exact start_invariant env
    (fun st => (∀ e ∈ st.commits, e.code ≠ "")
      ∧ (∀ k ∈ st.saved_keys, ∃ e ∈ st.commits, e.key = k))
    (fun st r h => by
      rcases processRow_step env st r with ⟨h1, h2⟩ | ⟨pid, hsup, hcode, hmem, hfr, h1, h2⟩
      · rw [h1, h2]; exact h
      · rw [h1, h2]
        constructor
        · intro e he
          rcases List.mem_cons.mp he with he | he
          · subst he; exact hcode
          · exact h.1 e he
        · intro k hk
          rcases List.mem_cons.mp hk with hk | hk
          · subst hk
            exact ⟨_, List.mem_cons_self _ _, rfl⟩
          · rcases h.2 k hk with ⟨e, he, hek⟩
            exact ⟨e, List.mem_cons_of_mem _ he, hek⟩)
    (fun st h => h)
    pages w0
    ⟨fun e he => absurd he (List.not_mem_nil e),
     fun k hk => absurd hk (List.not_mem_nil k)⟩

/-- Witness for C3 (amended): in the write-failure run the recorded key is
backed by a commit event, so the commit list is non-empty. -/
theorem c3_ledger_follows_extraction_witness :
    (start c3Env [[c3Row]] none).commits ≠ [] := by
  have h := (c3_ledger_follows_extraction c3Env [[c3Row]] none).2
      ("0003", "cpp") (by decide)
  rcases h with ⟨e, he, _⟩
  intro hnil
  rw [hnil] at he
  exact List.not_mem_nil e he

/-- C4: at most one commit occurs per DedupKey per run — the committed keys
of any run are pairwise distinct and each is backed by a ledger entry — and
in the concrete scenario of two accepted rows with the identical key
(0007, cpp), exactly one file is present on disk at run end, holding the
newest (first-processed under newest-first order) code, the second row
being skipped as a duplicate. -/
theorem c4_at_most_one_commit_per_key :
    (∀ (env : Env) (pages : List (List Row)) (w0 : Option Int),
      ((start env pages w0).commits.map CommitEvent.key).Nodup
        ∧ ∀ e ∈ (start env pages w0).commits, e.key ∈ (start env pages w0).saved_keys)
    ∧ (start c4Env [[c4RowNew, c4RowOld]] none).files = [("0007 - T.cpp", "new code")]
    ∧ (start c4Env [[c4RowNew, c4RowOld]] none).commits.length = 1
    ∧ (start c4Env [[c4RowNew, c4RowOld]] none).rows_seen = 2 := by
  refine ⟨?_, by decide, by decide, by decide⟩
  intro env pages w0
  exact start_invariant env
    (fun st => (st.commits.map CommitEvent.key).Nodup
      ∧ ∀ e ∈ st.commits, e.key ∈ st.saved_keys)
    (fun st r h => by
      rcases processRow_step env st r with ⟨h1, h2⟩ | ⟨pid, hsup, hcode, hmem, hfr, h1, h2⟩
      · rw [h1, h2]; exact h
      · rw [h1, h2]
        constructor
        · simp only [List.map_cons, List.nodup_cons]
          refine ⟨?_, h.1⟩
          intro hk
          rcases List.mem_map.mp hk with ⟨e, he, hek⟩
          exact hmem (hek ▸ h.2 e he)
        · intro e he
          rcases List.mem_cons.mp he with he | he
          · subst he; exact List.mem_cons_self _ _
          · exact List.mem_cons_of_mem _ (h.2 e he))
    (fun st h => h)
    pages w0
    ⟨List.nodup_nil, fun e he => absurd he (List.not_mem_nil e)⟩

/-- Witness for C4: the committed key of the duplicate-key run is in the
ledger at run end. -/
theorem c4_at_most_one_commit_per_key_witness :
    (("0007", "cpp") : String × String)
      ∈ (start c4Env [[c4RowNew, c4RowOld]] none).saved_keys := by
  exact (c4_at_most_one_commit_per_key.1 c4Env [[c4RowNew, c4RowOld]] none).2
    ⟨("0007", "cpp"), 940, "new code"⟩ (by decide)

/-- Counterexample to C7: when the problem page yields no id/title pair, the
failure is not memoized, so a second row with the same problem reference
invokes the page client again — two client invocations for one reference in
one run, not at most one. -/
theorem c7_counterexample :
    (start c7Env [[c7Row, c7Row]] none).client_calls = 2 := by
  decide

/-- C7 (amended): identity resolution is memoized per run on success only: a
reference present in the cache is answered from the cache with the same
(problem_id, title) pair and no client call; a first successful resolution
performs one client call and caches the zero-padded pair, after which a
repeated lookup of the same reference performs no further call; a failed
resolution performs a client call but is not cached, leaving the cache
unchanged, so a later lookup invokes the client again. -/
theorem c7_memoized_on_success (oracle : String → Option (String × String))
    (cache : List (String × String × String)) (url : String) :
    (∀ v, List.lookup url cache = some v →
        extract_problem_id_and_title oracle cache url = (some v, cache, 0))
    ∧ (∀ rid ttl, List.lookup url cache = none → oracle url = some (rid, ttl) →
        extract_problem_id_and_title oracle cache url
            = (some (zfill rid 4, ttl), (url, zfill rid 4, ttl) :: cache, 1)
          ∧ extract_problem_id_and_title oracle ((url, zfill rid 4, ttl) :: cache) url
            = (some (zfill rid 4, ttl), (url, zfill rid 4, ttl) :: cache, 0))
    ∧ (List.lookup url cache = none → oracle url = none →
        extract_problem_id_and_title oracle cache url = (none, cache, 1)) := by
  refine ⟨?_, ?_, ?_⟩
  · intro v hv
    unfold extract_problem_id_and_title
    rw [hv]
  · intro rid ttl hc ho
    constructor
    · unfold extract_problem_id_and_title
      rw [hc, ho]
    · unfold extract_problem_id_and_title
      simp [List.lookup]
  · intro hc ho
    unfold extract_problem_id_and_title
    rw [hc, ho]

/-- Witness for C7 (amended): a cached reference is answered from the cache
with zero client calls. -/
theorem c7_memoized_on_success_witness :
    extract_problem_id_and_title
        (fun u => if u = "u1" then some ("1", "A") else none)
        [("u1", "0001", "A")] "u1"
      = (some ("0001", "A"), [("u1", "0001", "A")], 0) := by
  exact (c7_memoized_on_success
      (fun u => if u = "u1" then some ("1", "A") else none)
      [("u1", "0001", "A")] "u1").1 ("0001", "A") (by decide)

/-- Counterexample to C8: an accepted submission in the unsupported language
`ruby` is dropped by the eligibility filter of the row loop — the run writes
no file and records no key — whereas the claim says it still produces a
saved file with extension txt. -/
theorem c8_counterexample :
    (start c8Env [[c8RowRuby]] none).files = []
    ∧ (start c8Env [[c8RowRuby]] none).saved_keys = [] := by
  decide

/-- C8 (amended): the writer's language-to-extension table maps cpp→cpp,
python3→py, c→c, java→java, javascript→js, typescript→ts and any unknown tag
(e.g. "ruby") to the generic txt without error; however the pipeline skips
accepted rows whose language is outside the supported set before reaching
the writer, so every committed row's language is supported and no file is
produced for an accepted submission in an unsupported language. -/
theorem c8_extension_mapping (env : Env) (pages : List (List Row))
    (w0 : Option Int) :
    get_extension "cpp" = "cpp" ∧ get_extension "python3" = "py"
    ∧ get_extension "c" = "c" ∧ get_extension "java" = "java"
    ∧ get_extension "javascript" = "js" ∧ get_extension "typescript" = "ts"
    ∧ get_extension "ruby" = "txt"
    ∧ (∀ e ∈ (start env pages w0).commits, e.key.2 ∈ supported_languages) := by
  refine ⟨rfl, rfl, rfl, rfl, rfl, rfl, rfl, ?_⟩
  exact start_invariant env
    (fun st => ∀ e ∈ st.commits, e.key.2 ∈ supported_languages)
    (fun st r h => by
      rcases processRow_step env st r with ⟨_, h2⟩ | ⟨pid, hsup, _, _, _, _, h2⟩
      · rw [h2]; exact h
      · rw [h2]
        intro e he
        rcases List.mem_cons.mp he with he | he
        · subst he; exact hsup
        · exact h e he)
    (fun st h => h)
    pages w0 (fun e he => absurd he (List.not_mem_nil e))

/-- Witness for C8 (amended): the committed python3 row of the concrete run
has a supported language. -/
theorem c8_extension_mapping_witness :
    ("python3" : String) ∈ supported_languages := by
  exact (c8_extension_mapping c8Env [[c8RowPy]] none).2.2.2.2.2.2.2
    ⟨("0009", "python3"), 995, "print(9)"⟩ (by decide)

/-- C1 (evaluation at the failing input): in a run with no prior watermark
over two accepted rows parsed at 999995 and 999990 with the clock at
1000000, both files are written and the newest observed row time is 999995,
yet the watermark persisted at termination is the clock value 1000000 — not
the maximum parsed submission time: `update_last_scraped_time` writes
`datetime.now()` and the tracked `newest_timestamp` is never used.
Furthermore, on the cutoff path the state file is written twice (once at
the cutoff, once more in the cleanup), not exactly once. -/
theorem c1_watermark_written_from_clock :
    (start c1Env [[c1RowPy, c1RowCpp]] none).files.length = 2
    ∧ (start c1Env [[c1RowPy, c1RowCpp]] none).newest_timestamp = some 999995
    ∧ (start c1Env [[c1RowPy, c1RowCpp]] none).persisted_watermark = some 1000000
    ∧ (999995 : Int) ≠ 1000000
    ∧ (start c1Env [[c1RowPy, c1RowCpp]] none).watermark_writes = 1
    ∧ (start c1Env [[c1RowPy]] (some 999999)).watermark_writes = 2 := by
  decide

end Scraper
